import Mathlib

/-!
# Verification of the L1 Soundness Checkpoint Generator

A shallow embedding of `src/app.py` (sampler, Keccak-256 hash-chain
accumulator, result assembly, and the CLI exit-code skeleton), together with
theorems settling the specification claims about it.

Conventions:
* Python byte strings are `List Nat` with every element `< 256`.
* Python unbounded integers are `Int` (block heights, CLI parameters) or
  `Nat` (header numbers, which are non-negative on chain).
* Fallible calls (`w3.eth.get_block`) are `Except String _`.
-/

set_option maxRecDepth 100000
set_option maxHeartbeats 1000000

namespace App

/-! ## Keccak-256 (as used by `Web3.keccak`)

Keccak-f[1600] with rate 1088 / capacity 512 and the original Keccak
multi-rate padding (`0x01 … 0x80`), i.e. Ethereum's Keccak-256, not
SHA3-256.  Lanes are 64-bit words modelled as `Nat` reduced mod `2^64`. -/

/-- 64-bit left rotation on a lane (a `Nat` below `2^64`). -/
def rotl64 (x n : Nat) : Nat :=
  ((x <<< n) ||| (x >>> (64 - n))) % (2 ^ 64)

/-- Lane lookup in a 25-element state list (index `x + 5*y`). -/
def lane (st : List Nat) (i : Nat) : Nat := st.getD i 0

/-- Keccak θ step. -/
def kTheta (A : List Nat) : List Nat :=
  let C := (List.range 5).map fun x =>
    lane A x ^^^ lane A (x + 5) ^^^ lane A (x + 10) ^^^ lane A (x + 15) ^^^ lane A (x + 20)
  (List.range 25).map fun i =>
    let x := i % 5
    lane A i ^^^ lane C ((x + 4) % 5) ^^^ rotl64 (lane C ((x + 1) % 5)) 1

/-- Keccak ρ rotation offsets, flattened with lane `(x, y)` at index `x + 5*y`,
generated from the reference recurrence: starting at lane `(1, 0)` and stepping
`(x, y) ↦ (y, (2x + 3y) mod 5)`, step `t` receives offset
`(t+1)(t+2)/2 mod 64`; lane `(0, 0)` keeps offset 0. -/
def rhoOffsets : List Nat :=
  (((List.range 24).foldl
    (fun acc t =>
      let x := acc.2.1
      let y := acc.2.2
      (acc.1.set (x + 5 * y) ((t + 1) * (t + 2) / 2 % 64), (y, (2 * x + 3 * y) % 5)))
    (List.replicate 25 0, (1, 0)))).1

/-- Keccak ρ and π steps combined: `B[y, (2x+3y) mod 5] = rotl(A[x, y], r[x, y])`. -/
def kRhoPi (A : List Nat) : List Nat :=
  (List.range 25).foldl
    (fun B i =>
      let x := i % 5
      let y := i / 5
      B.set (y + 5 * ((2 * x + 3 * y) % 5)) (rotl64 (lane A i) (lane rhoOffsets i)))
    (List.replicate 25 0)

/-- Keccak χ step: `A[x, y] = B[x, y] xor ((not B[x+1, y]) and B[x+2, y])`. -/
def kChi (B : List Nat) : List Nat :=
  (List.range 25).map fun i =>
    let x := i % 5
    let y := i / 5
    lane B i ^^^ ((lane B ((x + 1) % 5 + 5 * y) ^^^ (2 ^ 64 - 1)) &&& lane B ((x + 2) % 5 + 5 * y))

/-- The 24 Keccak-f[1600] round constants (64-bit values written in
decimal). -/
def roundConstants : List Nat :=
  [1, 32898, 9223372036854808714, 9223372039002292224, 32907, 2147483649,
   9223372039002292353, 9223372036854808585, 138, 136, 2147516425, 2147483658,
   2147516555, 9223372036854775947, 9223372036854808713, 9223372036854808579,
   9223372036854808578, 9223372036854775936, 32778, 9223372039002259466,
   9223372039002292353, 9223372036854808704, 2147483649, 9223372039002292232]

/-- One full Keccak-f[1600] permutation (24 rounds of θ, ρ, π, χ, ι). -/
def keccakF (A : List Nat) : List Nat :=
  roundConstants.foldl
    (fun st rc =>
      let B := kChi (kRhoPi (kTheta st))
      B.set 0 (lane B 0 ^^^ rc))
    A

/-- Original Keccak multi-rate padding for rate 136 bytes: append `0x01`,
zero or more `0x00`, and a final `0x80` (a single `0x81` byte when only one
byte of padding is needed). -/
def pad101 (msg : List Nat) : List Nat :=
  let padLen := 136 - msg.length % 136
  if padLen = 1 then msg ++ [0x81]
  else msg ++ [0x01] ++ List.replicate (padLen - 2) 0 ++ [0x80]

/-- Split a rate-aligned byte list (the output of `pad101`, whose length is
always a positive multiple of 136) into its 136-byte rate blocks. -/
def chunks136 (l : List Nat) : List (List Nat) :=
  (List.range (l.length / 136)).map fun i => (l.drop (136 * i)).take 136

/-- Interpret (up to) eight bytes as a little-endian 64-bit lane. -/
def laneOfBytes (bs : List Nat) : Nat :=
  bs.foldr (fun b acc => b + 256 * acc) 0

/-- Absorb one 136-byte rate block: xor it into the first 17 lanes
(little-endian within each lane) and permute. -/
def absorbBlock (st : List Nat) (blk : List Nat) : List Nat :=
  keccakF ((List.range 25).map fun i =>
    if i < 17 then lane st i ^^^ laneOfBytes ((blk.drop (8 * i)).take 8) else lane st i)

/-- Keccak-256 of a byte string: pad, absorb all rate blocks into the all-zero
state, and squeeze the first 32 bytes (lanes read little-endian). -/
def keccak256 (msg : List Nat) : List Nat :=
  let st := (chunks136 (pad101 msg)).foldl absorbBlock (List.replicate 25 0)
  (List.range 32).map fun i => (lane st (i / 8) >>> (8 * (i % 8))) % 256

/-! ## Text encoders

`src/app.py` renders block numbers with Python's decimal `str` formatting
(inside an f-string) and byte strings with `bytes.hex()` — the plain
lowercase hex encoding without a `0x` prefix (as produced by the current
`hexbytes`/`web3` stack used by the script). -/

/-- Decimal digits, most significant first, by structural recursion on a fuel
bound (`fuel ≥ n + 1` always suffices since `n / 10 < n` for `n ≥ 10`). -/
def natDigitsAux : Nat → Nat → List Nat
  | 0, _ => []
  | f + 1, n => if n < 10 then [n] else natDigitsAux f (n / 10) ++ [n % 10]

/-- The decimal digits of a natural number, most significant first
(`natDigits 0 = [0]`, matching Python's `str(0) = "0"`). -/
def natDigits (n : Nat) : List Nat :=
  natDigitsAux (n + 1) n

/-- ASCII bytes of the decimal rendering of a natural number
(Python `f"{n}"` followed by `.encode()`). -/
def decimalBytes (n : Nat) : List Nat :=
  (natDigits n).map (· + 48)

/-- ASCII code of the lowercase hex digit for a value below 16. -/
def hexDigit (n : Nat) : Nat :=
  if n < 10 then 48 + n else 87 + n

/-- ASCII bytes of the lowercase, unprefixed hex encoding of a byte string
(Python `bytes.hex()`). -/
def bytesToHex (bs : List Nat) : List Nat :=
  bs.flatMap fun b => [hexDigit (b / 16), hexDigit (b % 16)]

/-! ## Data model -/

/-- The slice of a fetched block header the script reads
(`blk.number`, `blk.stateRoot`, `blk.receiptsRoot`, `blk.transactionsRoot`).
Roots are byte strings (`List Nat`). -/
structure Header where
  number : Nat
  stateRoot : List Nat
  receiptsRoot : List Nat
  transactionsRoot : List Nat
  deriving DecidableEq

/-- A header has well-formed roots when each is exactly 32 bytes. -/
def Header.wellFormed (h : Header) : Prop :=
  h.stateRoot.length = 32 ∧ h.receiptsRoot.length = 32 ∧ h.transactionsRoot.length = 32

/-- The connected `Web3` handle as the script uses it: a chain id, the tip
block number, and the fallible per-block header fetch (`w3.eth.get_block`). -/
structure W3 where
  chainId : Int
  blockNumber : Int
  getBlock : Int → Except String Header

/-- The result dictionary built at `src/app.py` lines 71–81.  `elapsedSec`
is a wall-clock measurement with no correctness content (spec §4.2); it is
carried as an opaque placeholder value. -/
structure Checkpoint where
  chainId : Int
  network : String
  head : Int
  start : Int
  blocksRequested : Int
  step : Int
  sampledBlocks : Nat
  elapsedSec : Nat
  checkpointHex : List Nat
  deriving DecidableEq

/-- Errors raised inside `build_soundness_checkpoint`: the explicit
`ValueError` for an empty selection (line 48), or a propagated exception from
`w3.eth.get_block` (line 56). -/
inductive BuildError where
  | emptySelection
  | headerFetch (msg : String)
  deriving DecidableEq

/-! ## Block sampler -/

/-- Python `list(range(a, b, c))` over unbounded integers.  For `c > 0` the
length is `max 0 ((b - a + c - 1) / c)` (floor division) and for `c < 0` it is
`max 0 ((a - b + (-c) - 1) / (-c))`; element `i` is `a + i*c`.  (Python raises
`ValueError` for `c = 0`; the CLI rejects `step ≤ 0` before the sampler runs
and no theorem below relies on the `c = 0` case.) -/
def pyRange (a b c : Int) : List Int :=
  if 0 < c then
    (List.range ((b - a + c - 1).toNat / c.toNat)).map fun i : Nat => a + (i : Int) * c
  else if c < 0 then
    (List.range ((a - b + (-c) - 1).toNat / (-c).toNat)).map fun i : Nat => a + (i : Int) * c
  else []

/-- The block sampler (spec §4.1 `sample`; inlined at `src/app.py`
lines 44–45): `start = max(0, head - blocks + 1)`;
`numbers = list(range(head, start - 1, -step))`. -/
def sample (head blocks step : Int) : List Int :=
  pyRange head (max 0 (head - blocks + 1) - 1) (-step)

/-! ## Checkpoint accumulator -/

/-- The canonical per-block payload,
`f"{blk.number}|{state_root}|{receipts_root}|{tx_root}".encode()`
(`src/app.py` lines 57–61): decimal block number, then the lowercase
unprefixed hex of `stateRoot`, `receiptsRoot`, `transactionsRoot`, joined
with `|` (ASCII 124). -/
def payloadBytes (blk : Header) : List Nat :=
  decimalBytes blk.number ++ [124] ++ bytesToHex blk.stateRoot ++ [124] ++
    bytesToHex blk.receiptsRoot ++ [124] ++ bytesToHex blk.transactionsRoot

/-- The fold loop of `src/app.py` lines 55–63, with the loop state
`(transcript, sampled)` made explicit: fetch each block in order, on success
replace the transcript with `keccak256 (transcript ++ payload)` and bump the
counter, on failure abort with the fetch error. -/
def accumulate (src : Int → Except String Header) :
    List Int → List Nat → Nat → Except String (List Nat × Nat)
  | [], t, k => .ok (t, k)
  | n :: rest, t, k =>
    match src n with
    | .error e => .error e
    | .ok blk => accumulate src rest (keccak256 (t ++ payloadBytes blk)) (k + 1)

/-- The payload as the spec words it (§4.2): the decimal block number and the
lowercase unprefixed hex encodings of `stateRoot`, `receiptsRoot`,
`transactionsRoot`, in that exact order, joined with `|` separators and no
padding.  Kept separate from `payloadBytes` (the source transcription) so the
two can be compared. -/
def specPayloadBytes (h : Header) : List Nat :=
  List.intercalate [124]
    [decimalBytes h.number, bytesToHex h.stateRoot, bytesToHex h.receiptsRoot,
     bytesToHex h.transactionsRoot]

/-- The transcript as the spec words it (§4.2): start from 32 zero bytes and
for each header in order replace the transcript with Keccak-256 of the old
transcript bytes immediately followed by the payload bytes. -/
def specTranscript (hs : List Header) : List Nat :=
  hs.foldl (fun t h => keccak256 (t ++ specPayloadBytes h)) (List.replicate 32 0)

/-- The chain-id-to-name lookup (`src/app.py` lines 14–24). -/
def network_name (cid : Int) : String :=
  if cid = 1 then "Ethereum Mainnet"
  else if cid = 11155111 then "Sepolia Testnet"
  else if cid = 10 then "Optimism"
  else if cid = 137 then "Polygon"
  else if cid = 42161 then "Arbitrum One"
  else "Unknown (chain ID " ++ toString cid ++ ")"

/-- `build_soundness_checkpoint` (`src/app.py` lines 40–81): sample the block
numbers, fail on an empty selection, fold the headers into the transcript
starting from 32 zero bytes, and pack the result dictionary. -/
def build_soundness_checkpoint (w3 : W3) (blocks step : Int) :
    Except BuildError Checkpoint :=
  let head := w3.blockNumber
  let start := max 0 (head - blocks + 1)
  let numbers := sample head blocks step
  if numbers = [] then .error .emptySelection
  else
    match accumulate w3.getBlock numbers (List.replicate 32 0) 0 with
    | .error e => .error (.headerFetch e)
    | .ok (transcript, sampled) =>
      .ok { chainId := w3.chainId
            network := network_name w3.chainId
            head := head
            start := start
            blocksRequested := blocks
            step := step
            sampledBlocks := sampled
            elapsedSec := 0
            checkpointHex := bytesToHex transcript }

/-! ## CLI skeleton -/

/-- Observable outcome of one `main` run: a non-zero exit, or the checkpoint
printed on success. -/
inductive MainOutcome where
  | exit (code : Nat)
  | success (r : Checkpoint)
  deriving DecidableEq

/-- The control flow of `main` (`src/app.py` lines 115–149): validate
`--blocks`/`--step` (exit 1) before `connect` runs; a failed connection exits
1 inside `connect` (line 32); any exception from
`build_soundness_checkpoint` exits 2 (lines 129–133).  The `connect` attempt
is passed in as an `Except` since networking is external. -/
def runMain (blocks step : Int) (conn : Except String W3) : MainOutcome :=
  if blocks ≤ 0 ∨ step ≤ 0 then .exit 1
  else
    match conn with
    | .error _ => .exit 1
    | .ok w3 =>
      match build_soundness_checkpoint w3 blocks step with
      | .error _ => .exit 2
      | .ok r => .success r

/-! ## JSON data object -/

/-- A JSON scalar as placed in the machine-readable `data` object: an integer,
a Python string, or a Python string given by its ASCII bytes. -/
inductive JsonValue where
  | num (i : Int)
  | str (s : String)
  | ascii (bytes : List Nat)
  deriving DecidableEq

/-- The `data` object of the machine-readable output (`src/app.py`
lines 135–148): it is exactly the result dictionary of lines 71–81, rendered
here as key/value pairs in the dictionary's insertion order
(`json.dumps(..., sort_keys=True)` only permutes the keys alphabetically, so
the key *set* is unchanged). -/
def dataObject (r : Checkpoint) : List (String × JsonValue) :=
  [("chainId", .num r.chainId), ("network", .str r.network), ("head", .num r.head),
   ("start", .num r.start), ("blocksRequested", .num r.blocksRequested),
   ("step", .num r.step), ("sampledBlocks", .num (r.sampledBlocks : Int)),
   ("elapsedSec", .num (r.elapsedSec : Int)), ("checkpointHex", .ascii r.checkpointHex)]

/-- The nine keys of the result dictionary (`src/app.py` lines 71–81), in
insertion order. -/
def checkpointDictKeys : List String :=
  ["chainId", "network", "head", "start", "blocksRequested", "step",
   "sampledBlocks", "elapsedSec", "checkpointHex"]

/-- The nine `CheckpointResult` field names as the spec (§3) words them, for
comparison with the keys the program actually emits. -/
def specResultFieldNames : List String :=
  ["chainId", "networkLabel", "headHeight", "startHeight", "requestedBlocks",
   "stride", "sampledCount", "elapsedSeconds", "commitmentHex"]

/-- Project the commitment out of an accumulator run (the empty byte string
on a fetch failure, where no commitment exists). -/
def transcriptOf : Except String (List Nat × Nat) → List Nat
  | .ok (t, _) => t
  | .error _ => []

/-! ## Concrete fixtures (used by witnesses and counterexamples) -/

/-- A block header with all-zero 32-byte roots and number 0. -/
def hdr0 : Header :=
  ⟨0, List.replicate 32 0, List.replicate 32 0, List.replicate 32 0⟩

/-- A header source that returns `hdr0` for every block number. -/
def srcConst : Int → Except String Header := fun _ => .ok hdr0

/-- A header source returning, per block number, a header with that number
and all-zero 32-byte roots. -/
def srcHeaders : Int → Except String Header := fun n =>
  .ok ⟨n.toNat, List.replicate 32 0, List.replicate 32 0, List.replicate 32 0⟩

/-- Like `srcHeaders` but failing on negative numbers (it agrees with
`srcHeaders` on every non-negative block number). -/
def srcAlt : Int → Except String Header := fun n =>
  if n < 0 then .error "negative block"
  else .ok ⟨n.toNat, List.replicate 32 0, List.replicate 32 0, List.replicate 32 0⟩

/-- A header source that fails exactly on block 3. -/
def srcFail : Int → Except String Header := fun n =>
  if n = 3 then .error "header unavailable"
  else .ok ⟨n.toNat, List.replicate 32 0, List.replicate 32 0, List.replicate 32 0⟩

/-- Chain tip 0, chain id 1, constant header source. -/
def w3c : W3 := ⟨1, 0, srcConst⟩

/-- Chain tip 2 with per-block headers. -/
def w3A : W3 := ⟨1, 2, srcHeaders⟩

/-- Chain tip 2 with the alternative source `srcAlt`. -/
def w3B : W3 := ⟨1, 2, srcAlt⟩

/-- Chain tip 5 whose source fails on block 3. -/
def w3F : W3 := ⟨1, 5, srcFail⟩

/-- Chain tip 0 whose source always fails. -/
def w3E : W3 := ⟨1, 0, fun _ => .error "boom"⟩

/-- The checkpoint produced by `build_soundness_checkpoint w3c 1 1`. -/
def resC : Checkpoint :=
  ⟨1, network_name 1, 0, 0, 1, 1, 1, 0,
   bytesToHex (keccak256 (List.replicate 32 0 ++ payloadBytes hdr0))⟩

/-! ## Keccak sanity checks -/

/-- Sanity check against the published Keccak-256 test vector for the empty
input (the well-known Ethereum empty hash `c5d2…a470`). -/
theorem keccak256_empty_vector :
    keccak256 [] =
      [0xc5, 0xd2, 0x46, 0x01, 0x86, 0xf7, 0x23, 0x3c, 0x92, 0x7e, 0x7d, 0xb2,
       0xdc, 0xc7, 0x03, 0xc0, 0xe5, 0x00, 0xb6, 0x53, 0xca, 0x82, 0x27, 0x3b,
       0x7b, 0xfa, 0xd8, 0x04, 0x5d, 0x85, 0xa4, 0x70] := by decide

/-- Sanity check against the published Keccak-256 test vector for the ASCII
input `"abc"` (`4e03…6c45`). -/
theorem keccak256_abc_vector :
    keccak256 [97, 98, 99] =
      [0x4e, 0x03, 0x65, 0x7a, 0xea, 0x45, 0xa9, 0x4f, 0xc7, 0xd4, 0x7b, 0xa8,
       0x26, 0xc8, 0xd6, 0x67, 0xc0, 0xd1, 0xe6, 0xe3, 0x3a, 0x64, 0xa0, 0x36,
       0xec, 0x44, 0xf5, 0x8f, 0xa1, 0x2d, 0x6c, 0x45] := by decide

/-! ## Helper lemmas -/

/-- The source's f-string payload coincides with the spec's
separator-interleaved payload. -/
theorem payloadBytes_eq_spec (h : Header) : payloadBytes h = specPayloadBytes h := by
  simp [payloadBytes, specPayloadBytes, List.intercalate, List.intersperse]

/-- The sampled counter comes out as the initial counter plus the number of
blocks processed. -/
theorem accumulate_ok_count (src : Int → Except String Header) :
    ∀ (ns : List Int) (t : List Nat) (k : Nat) (t' : List Nat) (k' : Nat),
      accumulate src ns t k = .ok (t', k') → k' = k + ns.length := by
  intro ns
  induction ns with
  | nil =>
    intro t k t' k' h
    simp only [accumulate, Except.ok.injEq, Prod.mk.injEq] at h
    simp [h.2]
  | cons n rest ih =>
    intro t k t' k' h
    simp only [accumulate] at h
    cases hsrc : src n with
    | error e => rw [hsrc] at h; simp at h
    | ok blk =>
      rw [hsrc] at h
      have := ih _ _ _ _ h
      simp [this]; omega

/-- When every fetch succeeds (`Forall₂` pairs each sampled number with its
header), the accumulator is the plain fold of the hash chain over those
headers, and the counter advances by their number. -/
theorem accumulate_ok_of_forall₂ (src : Int → Except String Header) :
    ∀ {ns : List Int} {hs : List Header},
      List.Forall₂ (fun n h => src n = .ok h) ns hs →
      ∀ (t : List Nat) (k : Nat),
        accumulate src ns t k =
          .ok (hs.foldl (fun t h => keccak256 (t ++ payloadBytes h)) t, k + hs.length) := by
  intro ns hs hf
  induction hf with
  | nil => intro t k; simp [accumulate]
  | cons hnh _ ih =>
    intro t k
    simp only [accumulate, hnh]
    rw [ih]
    simp [Nat.add_comm, Nat.add_left_comm, Nat.add_assoc]

/-- The accumulator only looks at the header source on the sampled numbers. -/
theorem accumulate_congr (s₁ s₂ : Int → Except String Header) :
    ∀ (ns : List Int) (t : List Nat) (k : Nat),
      (∀ n ∈ ns, s₁ n = s₂ n) → accumulate s₁ ns t k = accumulate s₂ ns t k := by
  intro ns
  induction ns with
  | nil => intro t k _; rfl
  | cons n rest ih =>
    intro t k hag
    have hn : s₁ n = s₂ n := hag n (by simp)
    simp only [accumulate, hn]
    cases s₂ n with
    | error e => rfl
    | ok blk => exact ih _ _ fun m hm => hag m (by simp [hm])

/-- If the source fails on some sampled number, the accumulator aborts with
the error of the first failing block, whatever the initial state. -/
theorem accumulate_error_of_mem (src : Int → Except String Header) :
    ∀ (ns : List Int), (∃ n ∈ ns, ∃ e, src n = .error e) →
      ∃ n ∈ ns, ∃ e, src n = .error e ∧
        ∀ (t : List Nat) (k : Nat), accumulate src ns t k = .error e := by
  intro ns
  induction ns with
  | nil => rintro ⟨n, hn, -⟩; simp at hn
  | cons n rest ih =>
    rintro ⟨m, hm, e, he⟩
    cases hsrc : src n with
    | error e' =>
      exact ⟨n, by simp, e', hsrc, fun t k => by simp [accumulate, hsrc]⟩
    | ok blk =>
      have hmrest : m ∈ rest := by
        rcases List.mem_cons.mp hm with rfl | h
        · rw [hsrc] at he; cases he
        · exact h
      obtain ⟨n', hn', e', he', hacc⟩ := ih ⟨m, hmrest, e, he⟩
      exact ⟨n', by simp [hn'], e', he',
        fun t k => by simp [accumulate, hsrc, hacc]⟩

/-- A successful accumulation over at least one block ends in a transcript
that is a Keccak-256 output. -/
theorem accumulate_ok_shape (src : Int → Except String Header) :
    ∀ (ns : List Int) (t : List Nat) (k : Nat) (t' : List Nat) (k' : Nat),
      ns ≠ [] → accumulate src ns t k = .ok (t', k') →
      ∃ m, t' = keccak256 m := by
  intro ns
  induction ns with
  | nil => intro _ _ _ _ hne; exact absurd rfl hne
  | cons n rest ih =>
    intro t k t' k' _ h
    simp only [accumulate] at h
    cases hsrc : src n with
    | error e => rw [hsrc] at h; cases h
    | ok blk =>
      rw [hsrc] at h
      cases hrest : rest with
      | nil =>
        subst hrest
        simp [accumulate] at h
        exact ⟨_, h.1.symm⟩
      | cons m ms =>
        exact ih _ _ _ _ (by simp [hrest]) h

/-- Keccak-256 always squeezes exactly 32 bytes. -/
theorem keccak256_length (m : List Nat) : (keccak256 m).length = 32 := by
  simp [keccak256]

/-- Every squeezed Keccak-256 byte is below 256. -/
theorem keccak256_mem_lt (m : List Nat) : ∀ b ∈ keccak256 m, b < 256 := by
  intro b hb
  simp only [keccak256, List.mem_map, List.mem_range] at hb
  obtain ⟨i, -, rfl⟩ := hb
  exact Nat.mod_lt _ (by omega)

/-- `hexDigit` lands in ASCII `0`–`9` or `a`–`f` for inputs below 16. -/
theorem hexDigit_range {n : Nat} (h : n < 16) :
    (48 ≤ hexDigit n ∧ hexDigit n ≤ 57) ∨ (97 ≤ hexDigit n ∧ hexDigit n ≤ 102) := by
  unfold hexDigit
  split <;> omega

/-- Hex-encoding a byte string yields only lowercase hex digit characters. -/
theorem bytesToHex_chars {bs : List Nat} (hb : ∀ b ∈ bs, b < 256) :
    ∀ c ∈ bytesToHex bs, (48 ≤ c ∧ c ≤ 57) ∨ (97 ≤ c ∧ c ≤ 102) := by
  intro c hc
  simp only [bytesToHex, List.mem_flatMap, List.mem_cons, List.mem_singleton] at hc
  obtain ⟨b, hbmem, hcm⟩ := hc
  have hb256 := hb b hbmem
  rcases hcm with rfl | rfl | hcm
  · exact hexDigit_range (by omega)
  · exact hexDigit_range (by omega)
  · simp at hcm

/-- For a positive stride, the sampler is an explicit arithmetic list. -/
theorem sample_eq_of_pos (h b s : Int) (hs : 1 ≤ s) :
    sample h b s =
      (List.range ((h - max 0 (h - b + 1) + s).toNat / s.toNat)).map
        fun i : Nat => h + (i : Int) * (-s) := by
  unfold sample pyRange
  rw [if_neg (by omega), if_pos (by omega)]
  have harith : h - (max 0 (h - b + 1) - 1) + - -s - 1 = h - max 0 (h - b + 1) + s := by ring
  rw [harith, neg_neg]

/-- Characterization of the sampler under the spec preconditions: an
arithmetic list `h, h - s, h - 2s, …` whose length cut-off is exactly the
`≥ startHeight` bound. -/
theorem sample_spec (h b s : Int) (hh : 0 ≤ h) (hb : 1 ≤ b) (hs : 1 ≤ s) :
    ∃ k : Nat, 0 < k ∧
      sample h b s = (List.range k).map (fun i : Nat => h - (i : Int) * s) ∧
      ∀ i : Nat, i < k ↔ max 0 (h - b + 1) ≤ h - (i : Int) * s := by
  have hst : max 0 (h - b + 1) ≤ h := max_le hh (by omega)
  have hsn : 0 < s.toNat := by omega
  refine ⟨(h - max 0 (h - b + 1) + s).toNat / s.toNat, ?_, ?_, ?_⟩
  · exact Nat.div_pos (by omega) hsn
  · rw [sample_eq_of_pos h b s hs]
    have hfun : (fun i : Nat => h + (i : Int) * (-s)) = fun i : Nat => h - (i : Int) * s := by
      funext i; ring
    rw [hfun]
  · intro i
    have hd : (h - max 0 (h - b + 1) + s).toNat = (h - max 0 (h - b + 1)).toNat + s.toNat := by
      omega
    rw [hd, Nat.add_div_right _ hsn, Nat.lt_add_one_iff, Nat.le_div_iff_mul_le hsn]
    have hcast : ((s.toNat : Int)) = s := Int.toNat_of_nonneg (by omega)
    have hdc : (((h - max 0 (h - b + 1)).toNat : Int)) = h - max 0 (h - b + 1) :=
      Int.toNat_of_nonneg (by omega)
    constructor
    · intro hle
      have h2 : ((i * s.toNat : Nat) : Int) ≤ (((h - max 0 (h - b + 1)).toNat : Int)) :=
        Nat.cast_le.mpr hle
      rw [Nat.cast_mul, hcast, hdc] at h2
      linarith
    · intro hle
      have h2 : (i : Int) * s ≤ h - max 0 (h - b + 1) := by linarith
      have h3 : ((i * s.toNat : Nat) : Int) ≤ (((h - max 0 (h - b + 1)).toNat : Int)) := by
        rw [Nat.cast_mul, hcast, hdc]; exact h2
      exact Nat.cast_le.mp h3

/-- Inversion of a successful build: the sampled sequence was non-empty, the
accumulator succeeded, and the result fields record the accumulator's
transcript (hex-encoded) and counter. -/
theorem build_ok_inv (w3 : W3) (blocks step : Int) (r : Checkpoint)
    (hok : build_soundness_checkpoint w3 blocks step = .ok r) :
    sample w3.blockNumber blocks step ≠ [] ∧
    ∃ t k,
      accumulate w3.getBlock (sample w3.blockNumber blocks step) (List.replicate 32 0) 0 =
        .ok (t, k) ∧
      r.sampledBlocks = k ∧ r.checkpointHex = bytesToHex t := by
  simp only [build_soundness_checkpoint] at hok
  by_cases hemp : sample w3.blockNumber blocks step = []
  · rw [if_pos hemp] at hok; cases hok
  · rw [if_neg hemp] at hok
    refine ⟨hemp, ?_⟩
    cases hacc : accumulate w3.getBlock (sample w3.blockNumber blocks step)
        (List.replicate 32 0) 0 with
    | error e => rw [hacc] at hok; cases hok
    | ok p =>
      obtain ⟨t, k⟩ := p
      rw [hacc] at hok
      cases hok
      exact ⟨t, k, rfl, rfl, rfl⟩

/-! ## Claim theorems -/

/-- C2: for every `headHeight ≥ 0`, `requestedBlocks ≥ 1`, `stride ≥ 1`, the
sampler returns exactly the sequence `headHeight, headHeight − stride,
headHeight − 2·stride, …` containing precisely the values
`≥ startHeight = max(0, headHeight − requestedBlocks + 1)`, strictly
decreasing with `headHeight` first; and in particular
`sample(100, 21, 4) = [100, 96, 92, 88, 84, 80]` and
`sample(5, 100, 1) = [5, 4, 3, 2, 1, 0]`. -/
theorem sample_correct :
    (∀ (h b s : Int), 0 ≤ h → 1 ≤ b → 1 ≤ s →
      ∃ k : Nat, 0 < k ∧
        sample h b s = (List.range k).map (fun i : Nat => h - (i : Int) * s) ∧
        (∀ i : Nat, i < k ↔ max 0 (h - b + 1) ≤ h - (i : Int) * s) ∧
        (sample h b s).head? = some h ∧
        (sample h b s).Pairwise (fun x y => y < x)) ∧
    sample 100 21 4 = [100, 96, 92, 88, 84, 80] ∧
    sample 5 100 1 = [5, 4, 3, 2, 1, 0] := by
  refine ⟨?_, by decide, by decide⟩
  intro h b s hh hb hs
  obtain ⟨k, hk, hmap, hiff⟩ := sample_spec h b s hh hb hs
  refine ⟨k, hk, hmap, hiff, ?_, ?_⟩
  · obtain ⟨k', rfl⟩ : ∃ k', k = k' + 1 := ⟨k - 1, by omega⟩
    rw [hmap, List.range_succ_eq_map]
    simp
  · rw [hmap]
    refine List.pairwise_map.mpr ?_
    refine (List.pairwise_lt_range k).imp ?_
    intro a c hac
    have hcast : (a : Int) < (c : Int) := by exact_mod_cast hac
    have hmul := mul_lt_mul_of_pos_right hcast (by omega : (0 : Int) < s)
    linarith

/-- C2 witness: the characterization instantiated at
`headHeight = 3, requestedBlocks = 2, stride = 1`. -/
theorem sample_correct_witness :
    ∃ k : Nat, 0 < k ∧
      sample 3 2 1 = (List.range k).map (fun i : Nat => 3 - (i : Int) * 1) ∧
      (∀ i : Nat, i < k ↔ max 0 ((3 : Int) - 2 + 1) ≤ 3 - (i : Int) * 1) ∧
      (sample 3 2 1).head? = some 3 ∧
      (sample 3 2 1).Pairwise (fun x y => y < x) :=
  sample_correct.1 3 2 1 (by decide) (by decide) (by decide)

/-- C4: an empty sampled sequence makes the build fail with the
empty-selection error (independently of the header source, i.e. before any
hashing); and under the preconditions `headHeight ≥ 0`, `requestedBlocks ≥ 1`,
`stride ≥ 1` the sequence always contains `headHeight`, so that branch is
unreachable. -/
theorem empty_selection_guard :
    (∀ (w3 : W3) (blocks step : Int),
        sample w3.blockNumber blocks step = [] →
        build_soundness_checkpoint w3 blocks step = .error .emptySelection) ∧
    (∀ (head blocks step : Int), 0 ≤ head → 1 ≤ blocks → 1 ≤ step →
        sample head blocks step ≠ [] ∧ head ∈ sample head blocks step) ∧
    (∀ (w3 : W3) (blocks step : Int), 0 ≤ w3.blockNumber → 1 ≤ blocks → 1 ≤ step →
        build_soundness_checkpoint w3 blocks step ≠ .error .emptySelection) := by
  have hmem : ∀ (head blocks step : Int), 0 ≤ head → 1 ≤ blocks → 1 ≤ step →
      sample head blocks step ≠ [] ∧ head ∈ sample head blocks step := by
    intro h b s hh hb hs
    obtain ⟨k, hk, hmap, _⟩ := sample_spec h b s hh hb hs
    have hin : h ∈ sample h b s := by
      rw [hmap]
      exact List.mem_map.mpr ⟨0, List.mem_range.mpr hk, by simp⟩
    exact ⟨fun h0 => (by rw [h0] at hin; cases hin), hin⟩
  refine ⟨?_, hmem, ?_⟩
  · intro w3 blocks step hemp
    simp only [build_soundness_checkpoint]
    rw [if_pos hemp]
  · intro w3 blocks step hh hb hs hcontra
    obtain ⟨hne, -⟩ := hmem w3.blockNumber blocks step hh hb hs
    simp only [build_soundness_checkpoint] at hcontra
    rw [if_neg hne] at hcontra
    cases hacc : accumulate w3.getBlock (sample w3.blockNumber blocks step)
        (List.replicate 32 0) 0 with
    | error e => rw [hacc] at hcontra; cases hcontra
    | ok p =>
      obtain ⟨t, k⟩ := p
      rw [hacc] at hcontra
      cases hcontra

/-- C4 witness: the guard fires on the (precondition-violating) empty
selection `sample 0 1 (−1)`, and at `head = 0, blocks = 1, step = 1` the
sequence is non-empty, contains the head, and the build does not report an
empty selection. -/
theorem empty_selection_guard_witness :
    sample w3c.blockNumber 1 (-1) = [] ∧
    build_soundness_checkpoint w3c 1 (-1) = .error .emptySelection ∧
    (sample (0 : Int) 1 1 ≠ [] ∧ (0 : Int) ∈ sample (0 : Int) 1 1) ∧
    build_soundness_checkpoint w3c 1 1 ≠ .error .emptySelection := by
  have hemp : sample w3c.blockNumber 1 (-1) = [] := by decide
  exact ⟨hemp, empty_selection_guard.1 w3c 1 (-1) hemp,
    empty_selection_guard.2.1 0 1 1 (by decide) (by decide) (by decide),
    empty_selection_guard.2.2 w3c 1 1 (by decide) (by decide) (by decide)⟩

/-- C10: with a negative stride (bypassing the CLI validation) and
`headHeight ≥ startHeight`, the selection is empty and the build raises the
empty-selection error for every header source — the defensive check is
reachable when caller discipline fails. -/
theorem negative_stride_empty_selection (head blocks step : Int) (hstep : step < 0)
    (hhs : max 0 (head - blocks + 1) ≤ head) :
    sample head blocks step = [] ∧
    ∀ w3 : W3, w3.blockNumber = head →
      build_soundness_checkpoint w3 blocks step = .error .emptySelection := by
  have hemp : sample head blocks step = [] := by
    unfold sample pyRange
    rw [if_pos (by omega : (0 : Int) < -step)]
    have hz : ((max 0 (head - blocks + 1) - 1) - head + -step - 1).toNat / (-step).toNat = 0 :=
      Nat.div_eq_of_lt (by omega)
    rw [hz]
    simp
  refine ⟨hemp, fun w3 hw => ?_⟩
  simp only [build_soundness_checkpoint]
  rw [hw, if_pos hemp]

/-- C10 witness: `head = 5, blocks = 3, step = −2` (so `startHeight = 3 ≤ 5`)
yields an empty selection and the empty-selection error. -/
theorem negative_stride_empty_selection_witness :
    sample 5 3 (-2) = [] ∧
    build_soundness_checkpoint ⟨1, 5, srcConst⟩ 3 (-2) = .error .emptySelection := by
  have h := negative_stride_empty_selection 5 3 (-2) (by decide) (by decide)
  exact ⟨h.1, h.2 ⟨1, 5, srcConst⟩ rfl⟩

/-- C8: non-positive `--blocks` or `--step` exits with code 1 whatever the
connection attempt would have produced (so before any network call or
hashing); with valid parameters, any failure inside
`build_soundness_checkpoint` (empty selection or fetch error) exits with
code 2. -/
theorem exit_codes :
    (∀ (blocks step : Int) (conn : Except String W3),
        blocks ≤ 0 ∨ step ≤ 0 → runMain blocks step conn = .exit 1) ∧
    (∀ (blocks step : Int) (w3 : W3) (e : BuildError), 0 < blocks → 0 < step →
        build_soundness_checkpoint w3 blocks step = .error e →
        runMain blocks step (.ok w3) = .exit 2) := by
  constructor
  · intro blocks step conn hbad
    simp only [runMain]
    rw [if_pos hbad]
  · intro blocks step w3 e hb hs hbuild
    simp only [runMain]
    rw [if_neg (by omega), hbuild]

/-- C8 witness: `blocks = 0` exits 1 even on a failed connection (no network
result needed), and a fetch failure during construction exits 2. -/
theorem exit_codes_witness :
    runMain 0 4 (.error "no connection") = .exit 1 ∧
    runMain 5 1 (.ok w3E) = .exit 2 :=
  ⟨exit_codes.1 0 4 (.error "no connection") (by decide),
   exit_codes.2 5 1 w3E (.headerFetch "boom") (by decide) (by decide) (by rfl)⟩

/-- C1: for every non-empty block-number sequence and every header source
that succeeds on each sampled block (pairing it with a header whose three
roots are 32 bytes), the accumulator starts from 32 zero bytes and folds,
block by block in sequence order, the Keccak-256 of the old transcript
followed by the spec's canonical payload (decimal number and lowercase
unprefixed hex roots, `|`-separated, in that exact order); the final
commitment is the final transcript. -/
theorem accumulator_spec (ns : List Int) (src : Int → Except String Header)
    (hs : List Header) (hne : ns ≠ []) (hwf : ∀ h ∈ hs, h.wellFormed)
    (hfetch : List.Forall₂ (fun n h => src n = .ok h) ns hs) :
    accumulate src ns (List.replicate 32 0) 0 = .ok (specTranscript hs, ns.length) := by
  rw [accumulate_ok_of_forall₂ src hfetch]
  have hfuneq : (fun (t : List Nat) (h : Header) => keccak256 (t ++ payloadBytes h)) =
      fun (t : List Nat) (h : Header) => keccak256 (t ++ specPayloadBytes h) := by
    funext t h
    rw [payloadBytes_eq_spec]
  rw [specTranscript, ← hfuneq, hfetch.length_eq]
  simp

/-- C1 witness: the sequence `[0]` with the constant source, whose header has
all-zero 32-byte roots. -/
theorem accumulator_spec_witness :
    accumulate srcConst [0] (List.replicate 32 0) 0 =
      .ok (specTranscript [hdr0], ([(0 : Int)] : List Int).length) :=
  accumulator_spec [0] srcConst [hdr0] (by simp)
    (by intro h hh; simp at hh; subst hh; refine ⟨by decide, by decide, by decide⟩)
    (List.Forall₂.cons rfl List.Forall₂.nil)

/-- C5: two runs over the same `(headHeight, requestedBlocks, stride)` whose
header sources agree on every sampled block produce identical build results
(in particular the same 32-byte commitment). -/
theorem build_deterministic (w₁ w₂ : W3) (blocks step : Int)
    (hcid : w₁.chainId = w₂.chainId) (hhead : w₁.blockNumber = w₂.blockNumber)
    (hsrc : ∀ n ∈ sample w₁.blockNumber blocks step, w₁.getBlock n = w₂.getBlock n) :
    build_soundness_checkpoint w₁ blocks step = build_soundness_checkpoint w₂ blocks step := by
  simp only [build_soundness_checkpoint]
  rw [← hhead, ← hcid]
  rw [accumulate_congr w₁.getBlock w₂.getBlock _ _ _ hsrc]

/-- C5 witness: tip 2, two sampled blocks, two syntactically different
sources that agree on the sampled blocks. -/
theorem build_deterministic_witness :
    w3A.chainId = w3B.chainId ∧ w3A.blockNumber = w3B.blockNumber ∧
    build_soundness_checkpoint w3A 2 1 = build_soundness_checkpoint w3B 2 1 := by
  refine ⟨rfl, rfl, build_deterministic w3A w3B 2 1 rfl rfl ?_⟩
  intro n hn
  rw [show sample w3A.blockNumber 2 1 = [2, 1] from by decide] at hn
  rcases List.mem_cons.mp hn with rfl | hn
  · rfl
  · rcases List.mem_cons.mp hn with rfl | hn
    · rfl
    · cases hn

/-- C7: if the header source fails on some sampled block, the build aborts
surfacing the fetch error of the first failing block and produces no
`CheckpointResult` at all. -/
theorem fetch_failure_aborts (w3 : W3) (blocks step : Int)
    (hfail : ∃ n ∈ sample w3.blockNumber blocks step, ∃ e, w3.getBlock n = .error e) :
    (∃ n ∈ sample w3.blockNumber blocks step, ∃ e, w3.getBlock n = .error e ∧
        build_soundness_checkpoint w3 blocks step = .error (.headerFetch e)) ∧
    ∀ r : Checkpoint, build_soundness_checkpoint w3 blocks step ≠ .ok r := by
  obtain ⟨n, hn, e, he, hacc⟩ := accumulate_error_of_mem w3.getBlock _ hfail
  have hne : sample w3.blockNumber blocks step ≠ [] := by
    intro h0
    rw [h0] at hn
    cases hn
  have hbuild : build_soundness_checkpoint w3 blocks step = .error (.headerFetch e) := by
    simp only [build_soundness_checkpoint]
    rw [if_neg hne, hacc (List.replicate 32 0) 0]
  exact ⟨⟨n, hn, e, he, hbuild⟩, fun r hr => by rw [hbuild] at hr; cases hr⟩

/-- C7 witness: five sampled blocks `[5, 4, 3, 2, 1]` whose source fails on
the third one. -/
theorem fetch_failure_aborts_witness :
    (∃ n ∈ sample w3F.blockNumber 5 1, ∃ e, w3F.getBlock n = .error e ∧
        build_soundness_checkpoint w3F 5 1 = .error (.headerFetch e)) ∧
    ∀ r : Checkpoint, build_soundness_checkpoint w3F 5 1 ≠ .ok r :=
  fetch_failure_aborts w3F 5 1 ⟨3, by decide, "header unavailable", rfl⟩

/-- C9: on every successful build, `sampledBlocks` equals the length of the
sampler's output sequence for that build. -/
theorem sampled_count_eq (w3 : W3) (blocks step : Int) (r : Checkpoint)
    (hok : build_soundness_checkpoint w3 blocks step = .ok r) :
    r.sampledBlocks = (sample w3.blockNumber blocks step).length := by
  obtain ⟨-, t, k, hacc, hsb, -⟩ := build_ok_inv w3 blocks step r hok
  have hcount := accumulate_ok_count w3.getBlock _ _ _ _ _ hacc
  omega

/-- C9 witness: the concrete one-block build `build w3c 1 1`. -/
theorem sampled_count_eq_witness :
    build_soundness_checkpoint w3c 1 1 = .ok resC ∧
    resC.sampledBlocks = (sample w3c.blockNumber 1 1).length := by
  have hok : build_soundness_checkpoint w3c 1 1 = .ok resC := by rfl
  exact ⟨hok, sampled_count_eq w3c 1 1 resC hok⟩

/-- C3 counterexample: the spec's `CheckpointResult` field names are not the
keys the program's data object carries — e.g. the spec names `networkLabel`,
while the emitted dictionary uses `network` (likewise `head`, `start`,
`blocksRequested`, `step`, `sampledBlocks`, `elapsedSec`, `checkpointHex`). -/
theorem result_fields_mismatch :
    "networkLabel" ∈ specResultFieldNames ∧ "networkLabel" ∉ checkpointDictKeys ∧
    checkpointDictKeys ≠ specResultFieldNames := by decide

/-- C3 (amended): on every successful build the machine-readable data object
carries exactly the nine result fields — under the keys `chainId`, `network`,
`head`, `start`, `blocksRequested`, `step`, `sampledBlocks`, `elapsedSec`,
`checkpointHex`, in one-to-one correspondence with §3's `CheckpointResult`
fields — and the commitment field is the lowercase, unprefixed hex string of
a 32-byte Keccak output. -/
theorem result_schema (w3 : W3) (blocks step : Int) (r : Checkpoint)
    (hok : build_soundness_checkpoint w3 blocks step = .ok r) :
    (dataObject r).map Prod.fst = checkpointDictKeys ∧
    ∃ t : List Nat, t.length = 32 ∧ (∀ b ∈ t, b < 256) ∧ r.checkpointHex = bytesToHex t ∧
      ∀ c ∈ r.checkpointHex, (48 ≤ c ∧ c ≤ 57) ∨ (97 ≤ c ∧ c ≤ 102) := by
  obtain ⟨hne, t, k, hacc, -, hhex⟩ := build_ok_inv w3 blocks step r hok
  obtain ⟨m, rfl⟩ := accumulate_ok_shape w3.getBlock _ _ _ _ _ hne hacc
  refine ⟨by simp [dataObject, checkpointDictKeys], keccak256 m, keccak256_length m,
    keccak256_mem_lt m, hhex, ?_⟩
  rw [hhex]
  exact bytesToHex_chars (keccak256_mem_lt m)

/-- C3 witness: the schema facts instantiated on the concrete build
`build w3c 1 1 = .ok resC`. -/
theorem result_schema_witness :
    (dataObject resC).map Prod.fst = checkpointDictKeys ∧
    ∃ t : List Nat, t.length = 32 ∧ (∀ b ∈ t, b < 256) ∧ resC.checkpointHex = bytesToHex t ∧
      ∀ c ∈ resC.checkpointHex, (48 ≤ c ∧ c ≤ 57) ∨ (97 ≤ c ∧ c ≤ 102) :=
  result_schema w3c 1 1 resC (by rfl)

/-- Two byte strings differing in their first byte are different. -/
theorem ne_of_head_ne (xs ys : List Nat) (h : xs.getD 0 0 ≠ ys.getD 0 0) : xs ≠ ys :=
  fun heq => h (congrArg (fun l : List Nat => l.getD 0 0) heq)

/-- First fold step of the `[10, 6]` chain, evaluated to its 32-byte value. -/
theorem keccak_chain_step_10 :
    keccak256 (List.replicate 32 0 ++
      payloadBytes ⟨(10 : Int).toNat, List.replicate 32 0, List.replicate 32 0,
        List.replicate 32 0⟩) =
    [38, 168, 112, 103, 65, 56, 106, 155, 88, 47, 70, 60, 70, 217, 44, 186, 40, 106,
     205, 199, 107, 28, 176, 79, 190, 69, 10, 70, 188, 207, 150, 218] := by decide

/-- First fold step of the `[6, 10]` chain, evaluated to its 32-byte value. -/
theorem keccak_chain_step_6 :
    keccak256 (List.replicate 32 0 ++
      payloadBytes ⟨(6 : Int).toNat, List.replicate 32 0, List.replicate 32 0,
        List.replicate 32 0⟩) =
    [191, 46, 109, 88, 158, 34, 253, 193, 121, 153, 165, 41, 202, 244, 252, 239, 161,
     255, 207, 95, 135, 105, 38, 99, 247, 202, 185, 68, 19, 253, 196, 152] := by decide

/-- First byte of the `[10, 6]` chain's final commitment. -/
theorem keccak_chain_step_10_6_head :
    (keccak256 ([38, 168, 112, 103, 65, 56, 106, 155, 88, 47, 70, 60, 70, 217, 44, 186,
        40, 106, 205, 199, 107, 28, 176, 79, 190, 69, 10, 70, 188, 207, 150, 218] ++
      payloadBytes ⟨(6 : Int).toNat, List.replicate 32 0, List.replicate 32 0,
        List.replicate 32 0⟩)).getD 0 0 = 42 := by decide

/-- First byte of the `[6, 10]` chain's final commitment. -/
theorem keccak_chain_step_6_10_head :
    (keccak256 ([191, 46, 109, 88, 158, 34, 253, 193, 121, 153, 165, 41, 202, 244, 252,
        239, 161, 255, 207, 95, 135, 105, 38, 99, 247, 202, 185, 68, 19, 253, 196,
        152] ++
      payloadBytes ⟨(10 : Int).toNat, List.replicate 32 0, List.replicate 32 0,
        List.replicate 32 0⟩)).getD 0 0 = 82 := by decide

/-- C6 counterexample: the claim quantifies over *every* sequence of at least
two blocks, but on a palindromic sequence such as `[10, 10]` the reversed
fold is the same fold, so the commitments coincide. -/
theorem reversed_fold_palindrome :
    2 ≤ ([(10 : Int), 10]).length ∧
    transcriptOf (accumulate srcHeaders (([(10 : Int), 10]).reverse) (List.replicate 32 0) 0) =
      transcriptOf (accumulate srcHeaders [(10 : Int), 10] (List.replicate 32 0) 0) := by
  refine ⟨by decide, ?_⟩
  rw [show ([(10 : Int), 10]).reverse = [(10 : Int), 10] from rfl]

/-- C6 (amended): reversing the fold order can and does change the
commitment — on the spec's own example, the two-block sequences `[10, 6]` and
`[6, 10]` with identical (all-zero 32-byte) header roots per block yield
different 32-byte outputs. -/
theorem reversed_fold_differs :
    transcriptOf (accumulate srcHeaders [(10 : Int), 6] (List.replicate 32 0) 0) ≠
      transcriptOf (accumulate srcHeaders [(6 : Int), 10] (List.replicate 32 0) 0) := by
  have hA : transcriptOf (accumulate srcHeaders [(10 : Int), 6] (List.replicate 32 0) 0) =
      keccak256 (keccak256 (List.replicate 32 0 ++
          payloadBytes ⟨(10 : Int).toNat, List.replicate 32 0, List.replicate 32 0,
            List.replicate 32 0⟩) ++
        payloadBytes ⟨(6 : Int).toNat, List.replicate 32 0, List.replicate 32 0,
          List.replicate 32 0⟩) := rfl
  have hB : transcriptOf (accumulate srcHeaders [(6 : Int), 10] (List.replicate 32 0) 0) =
      keccak256 (keccak256 (List.replicate 32 0 ++
          payloadBytes ⟨(6 : Int).toNat, List.replicate 32 0, List.replicate 32 0,
            List.replicate 32 0⟩) ++
        payloadBytes ⟨(10 : Int).toNat, List.replicate 32 0, List.replicate 32 0,
          List.replicate 32 0⟩) := rfl
  rw [hA, hB, keccak_chain_step_10, keccak_chain_step_6]
  refine ne_of_head_ne _ _ ?_
  rw [keccak_chain_step_10_6_head, keccak_chain_step_6_10_head]
  decide

end App

